import Mathlib

/-!
Verification of the E2E crypto core of sunday-cli
(`internal/crypto/e2e.go`, `internal/crypto/session.go`).

Go byte strings are modelled as `List Nat` (each element a byte value below
256 where it matters).  The external cryptographic primitives from
`golang.org/x/crypto` (Argon2id, SHA-512, X25519 scalar-base multiplication,
and the NaCl box payload open/seal) are not part of this repository; they are
abstracted as the fields of a `Prims` structure, carrying as a proposition
only the documented fact that SHA-512 outputs 64 bytes.  Everything written
in `e2e.go` and `session.go` itself — the derivation pipeline, clamping,
prefix handling, base64 framing, the verifier protocol, the retry loop and
the session cache — is embedded concretely below.
-/

namespace Sunday

/-- Bytes of a Lean string literal (all literals used here are ASCII, so
char codes coincide with the Go string bytes). -/
def goStr (s : String) : List Nat := s.data.map Char.toNat

/-- The distinct error outcomes the Go code can return (Go uses wrapped
`error` values; only their identity matters for the spec's claims). -/
inductive GoError where
  | base64Decode
  | decryptionFailed
  | badScalarLength
  | saltDecode
  | pinPrompt
  | derivingKeyPair
  | maxAttemptsExceeded
  deriving Repr, DecidableEq

/-! ## Standard base64 (`encoding/base64.StdEncoding`)

Modelled from the spec: standard (not URL-safe) base64 with `=` padding, as
used by `base64.StdEncoding.DecodeString` / `EncodeToString`; the library
code is external to the repository.  Encoding maps 3 bytes to 4 alphabet
characters; decoding consumes 4 characters at a time, accepts `=` padding
only at the very end, and fails on any character outside the alphabet. -/

/-- The character (byte value) for a sextet `n < 64` in the standard base64
alphabet `A-Z a-z 0-9 + /`. -/
def b64Char (n : Nat) : Nat :=
  if n < 26 then 65 + n
  else if n < 52 then 97 + (n - 26)
  else if n < 62 then 48 + (n - 52)
  else if n = 62 then 43
  else 47

/-- The sextet a character decodes to, or `none` for a character outside the
standard alphabet (including the padding character). -/
def b64Val (c : Nat) : Option Nat :=
  if 65 ≤ c ∧ c ≤ 90 then some (c - 65)
  else if 97 ≤ c ∧ c ≤ 122 then some (26 + (c - 97))
  else if 48 ≤ c ∧ c ≤ 57 then some (52 + (c - 48))
  else if c = 43 then some 62
  else if c = 47 then some 63
  else none

/-- Base64-encode a byte string (standard alphabet, `=` padding). -/
def base64Encode : List Nat → List Nat
  | [] => []
  | [b0] => [b64Char (b0 / 4), b64Char (b0 % 4 * 16), 61, 61]
  | [b0, b1] => [b64Char (b0 / 4), b64Char (b0 % 4 * 16 + b1 / 16),
      b64Char (b1 % 16 * 4), 61]
  | b0 :: b1 :: b2 :: rest =>
      b64Char (b0 / 4) :: b64Char (b0 % 4 * 16 + b1 / 16) ::
      b64Char (b1 % 16 * 4 + b2 / 64) :: b64Char (b2 % 64) :: base64Encode rest

/-- Base64-decode a byte string; fails (like Go's `DecodeString`) on input
whose length is not a multiple of 4, on characters outside the alphabet, and
on padding anywhere but the end. -/
def base64Decode : List Nat → Except GoError (List Nat)
  | [] => .ok []
  | c0 :: c1 :: c2 :: c3 :: rest =>
      match b64Val c0, b64Val c1 with
      | some s0, some s1 =>
          if c2 = 61 ∧ c3 = 61 ∧ rest = [] then
            .ok [s0 * 4 + s1 / 16]
          else
            match b64Val c2 with
            | some s2 =>
                if c3 = 61 ∧ rest = [] then
                  .ok [s0 * 4 + s1 / 16, s1 % 16 * 16 + s2 / 4]
                else
                  match b64Val c3 with
                  | some s3 =>
                      match base64Decode rest with
                      | .ok tail =>
                          .ok ((s0 * 4 + s1 / 16) :: (s1 % 16 * 16 + s2 / 4) ::
                               (s2 % 4 * 64 + s3) :: tail)
                      | .error e => .error e
                  | none => .error .base64Decode
            | none => .error .base64Decode
      | _, _ => .error .base64Decode
  | _ => .error .base64Decode

/-! ## External crypto primitives -/

/-- The external `golang.org/x/crypto` primitives the core calls.  They are
outside the repository, so they are abstract here; `sha512_len` records the
one documented fact the embedding needs (SHA-512 produces 64 bytes). -/
structure Prims where
  /-- `argon2.IDKey password salt time memory threads keyLen`. -/
  argon2IDKey : List Nat → List Nat → Nat → Nat → Nat → Nat → List Nat
  /-- `sha512.Sum512`. -/
  sha512 : List Nat → List Nat
  /-- `curve25519.X25519 scalar Basepoint` for a 32-byte scalar (on the
  basepoint branch the Go library never errors). -/
  x25519Base : List Nat → List Nat
  /-- The authenticated payload opening inside `box.OpenAnonymous`:
  arguments are ephemeral public key, recipient public key, recipient
  private key, payload (ciphertext plus 16-byte tag). -/
  boxOpen : List Nat → List Nat → List Nat → List Nat → Option (List Nat)
  /-- `box.SealAnonymous`: arguments are the ephemeral randomness drawn from
  `rand.Reader`, the message and the recipient public key; the result is the
  full sealed ciphertext (ephemeral public key prepended). -/
  boxSeal : List Nat → List Nat → List Nat → List Nat
  /-- SHA-512 outputs 64 bytes. -/
  sha512_len : ∀ b, (sha512 b).length = 64

/-! ## `internal/crypto/e2e.go` -/

/-- The prefix prepended to every E2E-encrypted field value
(`EncryptedPrefix = "e2e::"`). -/
def EncryptedPrefix : List Nat := goStr "e2e::"

/-- The literal string encrypted inside the verifier
(`verifyPlaintext = "sunday-e2e-verify"`). -/
def verifyPlaintext : List Nat := goStr "sunday-e2e-verify"

/-- Argon2id time cost (`argon2Time = 3`). -/
def argon2Time : Nat := 3

/-- Argon2id memory cost in KiB (`argon2Memory = 64 * 1024`). -/
def argon2Memory : Nat := 64 * 1024

/-- Argon2id parallelism (`argon2Threads = 1`). -/
def argon2Threads : Nat := 1

/-- Argon2id output length (`argon2KeyLen = 32`). -/
def argon2KeyLen : Nat := 32

/-- A NaCl box keypair derived from a PIN (`KeyPair` in `e2e.go`); both
halves are 32-byte strings. -/
structure KeyPair where
  publicKey : List Nat
  privateKey : List Nat
  deriving Repr, DecidableEq

/-- Curve25519 clamping as written in `DeriveKeyPair`:
`privateKey[0] &= 248; privateKey[31] &= 127; privateKey[31] |= 64`. -/
def clamp (k : List Nat) : List Nat :=
  let k0 := k.set 0 (k.getD 0 0 &&& 248)
  let k1 := k0.set 31 (k0.getD 31 0 &&& 127)
  k1.set 31 (k1.getD 31 0 ||| 64)

/-- `curve25519.X25519 scalar Basepoint`: errors only when the scalar is not
32 bytes; on the basepoint branch the Go library performs no low-order-point
check and cannot fail otherwise. -/
def X25519Base (P : Prims) (scalar : List Nat) : Except GoError (List Nat) :=
  if scalar.length = 32 then .ok (P.x25519Base scalar) else .error .badScalarLength

/-- `DeriveKeyPair pin salt` from `e2e.go`: Argon2id seed, SHA-512 hash,
clamp the first 32 bytes, scalar-basepoint multiplication. -/
def DeriveKeyPair (P : Prims) (pin salt : List Nat) : Except GoError KeyPair :=
  let seed := P.argon2IDKey pin salt argon2Time argon2Memory argon2Threads argon2KeyLen
  let hash := P.sha512 seed
  let privateKey := clamp (hash.take 32)
  match X25519Base P privateKey with
  | .error e => .error e
  | .ok publicKey => .ok ⟨publicKey, privateKey⟩

/-- Modelled from the spec: the reference derivation pipeline of §4.1 —
Argon2id over the PIN with the salt (time 3, memory 65536 KiB, parallelism
1, output 32 bytes) giving the seed; SHA-512 of the seed; first 32 bytes
clamped as the private scalar; X25519 scalar-basepoint multiplication as the
public key. -/
def specPipeline (P : Prims) (pin salt : List Nat) : KeyPair :=
  let seed := P.argon2IDKey pin salt 3 65536 1 32
  let hash := P.sha512 seed
  let priv := clamp (hash.take 32)
  ⟨P.x25519Base priv, priv⟩

/-- Modelled from the spec: `box.OpenAnonymous` (external library) — fails
when the ciphertext is below the minimum overhead of 48 bytes (32-byte
ephemeral key plus 16-byte tag), otherwise splits off the 32-byte ephemeral
public key and opens the authenticated payload. -/
def OpenAnonymous (P : Prims) (ct pub priv : List Nat) : Option (List Nat) :=
  if ct.length < 48 then none
  else P.boxOpen (ct.take 32) pub priv (ct.drop 32)

/-- `Decrypt ciphertext kp` from `e2e.go`: `box.OpenAnonymous` with the
keypair, turning its boolean failure into a decryption-failed error. -/
def Decrypt (P : Prims) (ciphertext : List Nat) (kp : KeyPair) :
    Except GoError (List Nat) :=
  match OpenAnonymous P ciphertext kp.publicKey kp.privateKey with
  | none => .error .decryptionFailed
  | some plaintext => .ok plaintext

/-- `IsEncrypted value` from `e2e.go`: `strings.HasPrefix value EncryptedPrefix`. -/
def IsEncrypted (value : List Nat) : Bool :=
  EncryptedPrefix.isPrefixOf value

/-- `DecryptField value kp` from `e2e.go`: pass through untagged values,
otherwise strip the prefix, base64-decode and decrypt. -/
def DecryptField (P : Prims) (value : List Nat) (kp : KeyPair) :
    Except GoError (List Nat) :=
  if IsEncrypted value then
    let b64 := value.drop EncryptedPrefix.length
    match base64Decode b64 with
    | .error _ => .error .base64Decode
    | .ok ciphertext => Decrypt P ciphertext kp
  else
    .ok value

/-- `Verify kp verifierB64` from `e2e.go`: base64-decode, decrypt, compare
with the fixed verifier plaintext; any failure yields `false`. -/
def Verify (P : Prims) (kp : KeyPair) (verifierB64 : List Nat) : Bool :=
  match base64Decode verifierB64 with
  | .error _ => false
  | .ok ciphertext =>
      match Decrypt P ciphertext kp with
      | .error _ => false
      | .ok plaintext => plaintext == verifyPlaintext

/-- `CreateVerifier kp` from `e2e.go`: seal the verifier plaintext under the
public key (the ephemeral randomness `r` stands for `rand.Reader`) and
base64-encode the ciphertext. -/
def CreateVerifier (P : Prims) (r : List Nat) (kp : KeyPair) : List Nat :=
  base64Encode (P.boxSeal r verifyPlaintext kp.publicKey)

/-! ## `internal/crypto/session.go`

The package-level cache `cachedKeyPair` is made an explicit argument and
result, and the interactive `PromptPIN` becomes a PIN source indexed by the
attempt number (1-based), as the spec's §9 design note prescribes for
testability.  The result triple is (returned value, cache afterwards,
number of PIN prompts performed). -/

/-- Maximum number of PIN attempts (`maxPINAttempts = 3`). -/
def maxPINAttempts : Nat := 3

/-- The retry loop body of `GetOrPromptKeyPair`: `remaining` attempts left,
`used` prompts already performed.  Each round prompts for a PIN, derives a
keypair and verifies it; a verified keypair is cached and returned, a prompt
or derivation error aborts, and exhausting the budget fails with the
maximum-attempts error, leaving the cache empty. -/
def promptLoop (P : Prims) (pinSource : Nat → Except GoError (List Nat))
    (salt verifierB64 : List Nat) :
    Nat → Nat → Except GoError KeyPair × Option KeyPair × Nat
  | 0, used => (.error .maxAttemptsExceeded, none, used)
  | remaining + 1, used =>
      match pinSource (used + 1) with
      | .error _ => (.error .pinPrompt, none, used + 1)
      | .ok pin =>
          match DeriveKeyPair P pin salt with
          | .error _ => (.error .derivingKeyPair, none, used + 1)
          | .ok kp =>
              if Verify P kp verifierB64 then (.ok kp, some kp, used + 1)
              else promptLoop P pinSource salt verifierB64 remaining (used + 1)

/-- `GetOrPromptKeyPair saltB64 verifierB64` from `session.go`: return the
cached keypair if present; otherwise decode the salt and run the bounded
retry loop. -/
def GetOrPromptKeyPair (P : Prims) (pinSource : Nat → Except GoError (List Nat))
    (cache : Option KeyPair) (saltB64 verifierB64 : List Nat) :
    Except GoError KeyPair × Option KeyPair × Nat :=
  match cache with
  | some kp => (.ok kp, some kp, 0)
  | none =>
      match base64Decode saltB64 with
      | .error _ => (.error .saltDecode, none, 0)
      | .ok salt => promptLoop P pinSource salt verifierB64 maxPINAttempts 0

/-! ## Derived definitions and a concrete instance -/

/-- The private scalar `DeriveKeyPair` computes before the basepoint
multiplication. -/
def derivedPriv (P : Prims) (pin salt : List Nat) : List Nat :=
  clamp ((P.sha512 (P.argon2IDKey pin salt argon2Time argon2Memory argon2Threads
    argon2KeyLen)).take 32)

/-- The keypair `DeriveKeyPair` produces, as a total function. -/
def deriveKP (P : Prims) (pin salt : List Nat) : KeyPair :=
  ⟨P.x25519Base (derivedPriv P pin salt), derivedPriv P pin salt⟩

/-- The Curve25519 clamping bit pattern of the spec's KeyPair invariant:
bits 0-2 of byte 0 cleared, bit 7 of byte 31 cleared, bit 6 of byte 31 set. -/
def IsClamped (k : List Nat) : Prop :=
  (k.getD 0 0).testBit 0 = false ∧
  (k.getD 0 0).testBit 1 = false ∧
  (k.getD 0 0).testBit 2 = false ∧
  (k.getD 31 0).testBit 7 = false ∧
  (k.getD 31 0).testBit 6 = true

/-- A small computable stand-in for the external primitives, used only to
evaluate the theorems at concrete inputs: key stretching concatenates PIN
and salt, hashing pads or truncates to 64 bytes, scalar-basepoint
multiplication is the identity, and the sealed box is
`randomness ++ recipient ++ message`, opened by checking the embedded
recipient key against the private key. -/
def toyPrims : Prims where
  argon2IDKey := fun pin salt _ _ _ _ => pin ++ salt
  sha512 := fun b => b.takeD 64 0
  x25519Base := fun s => s
  boxOpen := fun _eph pub priv payload =>
    if payload.take 32 = pub ∧ pub = priv then some (payload.drop 32) else none
  boxSeal := fun r m pub => r ++ (pub ++ m)
  sha512_len := fun _ => List.takeD_length _ _ _

/-- A concrete 32-byte toy key. -/
def toyKeyA : List Nat := List.replicate 32 1

/-- A second, different concrete 32-byte toy key. -/
def toyKeyB : List Nat := List.replicate 32 2

/-- Concrete ephemeral randomness for the toy sealed box. -/
def toyRand : List Nat := List.replicate 32 3

/-- A toy keypair (under `toyPrims` the public key equals the private). -/
def toyKPA : KeyPair := ⟨toyKeyA, toyKeyA⟩

/-- A second toy keypair with a different private scalar. -/
def toyKPB : KeyPair := ⟨toyKeyB, toyKeyB⟩

/-! ## Helper lemmas -/

/-- Decoding inverts encoding on every sextet. -/
theorem b64Val_b64Char : ∀ n, n < 64 → b64Val (b64Char n) = some n := by decide

/-- No sextet encodes to the padding character. -/
theorem b64Char_ne_pad : ∀ n, n < 64 → b64Char n ≠ 61 := by decide

/-- Standard base64 round-trip: decoding an encoding gives back the bytes. -/
theorem base64Decode_encode (bs : List Nat) (h : ∀ b ∈ bs, b < 256) :
    base64Decode (base64Encode bs) = .ok bs := by
  induction bs using base64Encode.induct with
  | case1 => rfl
  | case2 b0 =>
      have hb0 : b0 < 256 := h b0 (by simp)
      have h0 := b64Val_b64Char (b0 / 4) (by omega)
      have h1 := b64Val_b64Char (b0 % 4 * 16) (by omega)
      simp only [base64Encode, base64Decode, h0, h1]
      rw [if_pos (by simp)]
      have e0 : b0 / 4 * 4 + b0 % 4 * 16 / 16 = b0 := by omega
      rw [e0]
  | case3 b0 b1 =>
      have hb0 : b0 < 256 := h b0 (by simp)
      have hb1 : b1 < 256 := h b1 (by simp)
      have h0 := b64Val_b64Char (b0 / 4) (by omega)
      have h1 := b64Val_b64Char (b0 % 4 * 16 + b1 / 16) (by omega)
      have h2 := b64Val_b64Char (b1 % 16 * 4) (by omega)
      have hne := b64Char_ne_pad (b1 % 16 * 4) (by omega)
      simp only [base64Encode, base64Decode, h0, h1, h2]
      rw [if_neg (by simp [hne]), if_pos (by simp)]
      have e0 : b0 / 4 * 4 + (b0 % 4 * 16 + b1 / 16) / 16 = b0 := by omega
      have e1 : (b0 % 4 * 16 + b1 / 16) % 16 * 16 + b1 % 16 * 4 / 4 = b1 := by omega
      rw [e0, e1]
  | case4 b0 b1 b2 rest ih =>
      have hb0 : b0 < 256 := h b0 (by simp)
      have hb1 : b1 < 256 := h b1 (by simp)
      have hb2 : b2 < 256 := h b2 (by simp)
      have h0 := b64Val_b64Char (b0 / 4) (by omega)
      have h1 := b64Val_b64Char (b0 % 4 * 16 + b1 / 16) (by omega)
      have h2 := b64Val_b64Char (b1 % 16 * 4 + b2 / 64) (by omega)
      have h3 := b64Val_b64Char (b2 % 64) (by omega)
      have hne2 := b64Char_ne_pad (b1 % 16 * 4 + b2 / 64) (by omega)
      have hne3 := b64Char_ne_pad (b2 % 64) (by omega)
      have hrest : base64Decode (base64Encode rest) = .ok rest := by
        refine ih ?_
        intro b hb
        exact h b (by simp [hb])
      simp only [base64Encode, base64Decode, h0, h1, h2, h3]
      rw [if_neg (by simp [hne2]), if_neg (by simp [hne3]), hrest]
      have e0 : b0 / 4 * 4 + (b0 % 4 * 16 + b1 / 16) / 16 = b0 := by omega
      have e1 : (b0 % 4 * 16 + b1 / 16) % 16 * 16 + (b1 % 16 * 4 + b2 / 64) / 4 = b1 := by
        omega
      have e2 : (b1 % 16 * 4 + b2 / 64) % 4 * 64 + b2 % 64 = b2 := by omega
      rw [e0, e1, e2]

/-- Clamping does not change the length of the scalar. -/
theorem clamp_length (k : List Nat) : (clamp k).length = k.length := by
  simp [clamp]

/-- The low byte after clamping. -/
theorem clamp_getD_zero (k : List Nat) (hk : k.length = 32) :
    (clamp k).getD 0 0 = (k.getD 0 0 &&& 248) := by
  simp [clamp, List.getD_eq_getElem?_getD, List.getElem?_set_ne, hk]

/-- The top byte after clamping. -/
theorem clamp_getD_top (k : List Nat) (hk : k.length = 32) :
    (clamp k).getD 31 0 = ((k.getD 31 0 &&& 127) ||| 64) := by
  simp [clamp, List.getD_eq_getElem?_getD, List.getElem?_set_ne, hk]

/-- The derived private scalar is 32 bytes (SHA-512 gives 64, truncated to
32, and clamping preserves length). -/
theorem derivedPriv_length (P : Prims) (pin salt : List Nat) :
    (derivedPriv P pin salt).length = 32 := by
  simp [derivedPriv, clamp_length, P.sha512_len]

/-- `DeriveKeyPair` always succeeds, returning the clamped scalar and its
basepoint multiple. -/
theorem deriveKeyPair_eq (P : Prims) (pin salt : List Nat) :
    DeriveKeyPair P pin salt = .ok (deriveKP P pin salt) := by
  have h := derivedPriv_length P pin salt
  simp only [DeriveKeyPair, X25519Base, deriveKP, derivedPriv] at h ⊢
  rw [if_pos h]

/-- Clamping a 32-byte scalar establishes the clamping bit pattern. -/
theorem isClamped_clamp (k : List Nat) (hk : k.length = 32) :
    IsClamped (clamp k) := by
  rw [IsClamped, clamp_getD_zero k hk, clamp_getD_top k hk]
  refine ⟨?_, ?_, ?_, ?_, ?_⟩ <;>
    simp [Nat.testBit_and, Nat.testBit_or,
      show Nat.testBit 248 0 = false from rfl,
      show Nat.testBit 248 1 = false from rfl,
      show Nat.testBit 248 2 = false from rfl,
      show Nat.testBit 127 7 = false from rfl,
      show Nat.testBit 64 7 = false from rfl,
      show Nat.testBit 64 6 = true from rfl]

/-! ## Claim theorems -/

/-- C1: for every PIN byte string and every salt byte string (empty ones
included), `DeriveKeyPair` succeeds — it returns a keypair and no error —
and the keypair equals the spec's reference pipeline: Argon2id with time
cost 3, memory cost 65536 KiB, parallelism 1 and output length 32 over the
PIN and salt giving the seed, SHA-512 of the seed, the first 32 bytes
clamped as the private scalar, and X25519 scalar-basepoint multiplication
as the public key. -/
theorem C1_derive_matches_reference (P : Prims) (pin salt : List Nat) :
    DeriveKeyPair P pin salt = .ok (specPipeline P pin salt) := by
  rw [deriveKeyPair_eq]
  rfl

/-- C3: every keypair `DeriveKeyPair` returns has a public key equal to the
X25519 scalar-basepoint multiplication of its private scalar, and the
private scalar satisfies the Curve25519 clamping bit pattern (bits 0-2 of
byte 0 cleared, bit 7 of byte 31 cleared, bit 6 of byte 31 set). -/
theorem C3_keypair_invariant (P : Prims) (pin salt : List Nat) (kp : KeyPair)
    (h : DeriveKeyPair P pin salt = .ok kp) :
    kp.publicKey = P.x25519Base kp.privateKey ∧ IsClamped kp.privateKey := by
  rw [deriveKeyPair_eq] at h
  cases h
  refine ⟨rfl, ?_⟩
  exact isClamped_clamp _ (by simp [P.sha512_len])

/-- C5: decrypting any ciphertext shorter than 48 bytes fails with the
decryption-failure error, and whenever the sealed-box opening fails for any
reason the result is that error alone — the error constructor carries no
plaintext bytes. -/
theorem C5_decrypt_short_fails (P : Prims) (ct : List Nat) (kp : KeyPair)
    (h : ct.length < 48) :
    Decrypt P ct kp = .error .decryptionFailed ∧
    ∀ ct2, OpenAnonymous P ct2 kp.publicKey kp.privateKey = none →
      Decrypt P ct2 kp = .error .decryptionFailed := by
  constructor
  · simp [Decrypt, OpenAnonymous, h]
  · intro ct2 h2
    simp [Decrypt, h2]

/-- C6: `Verify` is a total boolean function (its codomain is `Bool`, so it
can never propagate an error) and returns `true` exactly when the verifier
base64-decodes, the decoded ciphertext decrypts under the keypair, and the
plaintext is exactly the constant `"sunday-e2e-verify"`. -/
theorem C6_verify_iff (P : Prims) (kp : KeyPair) (v : List Nat) :
    Verify P kp v = true ↔
    ∃ ct, base64Decode v = .ok ct ∧ Decrypt P ct kp = .ok verifyPlaintext := by
  unfold Verify
  cases hd : base64Decode v with
  | error e => simp
  | ok ct =>
      cases hdec : Decrypt P ct kp with
      | error e => simp [hdec]
      | ok pt => simp [hdec]

/-- C8: `IsEncrypted` is true exactly on values starting with the `"e2e::"`
prefix, and `DecryptField` passes any value without that prefix through
unchanged and without error, for every keypair. -/
theorem C8_field_passthrough (P : Prims) (v : List Nat) (kp : KeyPair) :
    (IsEncrypted v = true ↔ EncryptedPrefix <+: v) ∧
    (¬ EncryptedPrefix <+: v → DecryptField P v kp = .ok v) := by
  constructor
  · simp [IsEncrypted]
  · intro h
    have he : IsEncrypted v = false := by
      rw [IsEncrypted, ← Bool.not_eq_true, List.isPrefixOf_iff_prefix]
      exact h
    simp [DecryptField, he]

/-- C9: decrypting the bare prefix `"e2e::"` (empty payload) fails with the
decryption-failure error for every keypair — the empty base64 payload
decodes to a zero-length ciphertext, below the 48-byte minimum — and in
particular never succeeds with an empty string. -/
theorem C9_empty_payload_fails (P : Prims) (kp : KeyPair) :
    DecryptField P EncryptedPrefix kp = .error .decryptionFailed := rfl

/-- C10: whenever the session cache holds a keypair, `GetOrPromptKeyPair`
returns it unchanged with no error for arbitrary salt and verifier strings
(valid base64 or not), performs zero PIN prompts — so no salt decoding,
derivation or verification — and leaves the cache as it was. -/
theorem C10_cached_short_circuit (P : Prims)
    (pinSource : Nat → Except GoError (List Nat)) (kp : KeyPair)
    (saltB64 verifierB64 : List Nat) :
    GetOrPromptKeyPair P pinSource (some kp) saltB64 verifierB64 =
      (.ok kp, some kp, 0) := rfl

/-- C7: with the NaCl sealed-box behaviour the spec records taken as
hypotheses at this input — opening a box sealed for `kp` with `kp` returns
the plaintext, and opening it with a keypair whose private scalar differs
fails — `Verify` accepts `CreateVerifier kp` under `kp` for every choice of
ephemeral randomness `r`, and rejects it under every other keypair. -/
theorem C7_verifier_roundtrip (P : Prims) (r : List Nat) (kp other : KeyPair)
    (hbytes : ∀ b ∈ P.boxSeal r verifyPlaintext kp.publicKey, b < 256)
    (hopen : OpenAnonymous P (P.boxSeal r verifyPlaintext kp.publicKey)
      kp.publicKey kp.privateKey = some verifyPlaintext)
    (hne : other.privateKey ≠ kp.privateKey)
    (hwrong : other.privateKey ≠ kp.privateKey →
      OpenAnonymous P (P.boxSeal r verifyPlaintext kp.publicKey)
        other.publicKey other.privateKey = none) :
    Verify P kp (CreateVerifier P r kp) = true ∧
    Verify P other (CreateVerifier P r kp) = false := by
  have hdec := base64Decode_encode _ hbytes
  constructor
  · simp [Verify, CreateVerifier, hdec, Decrypt, hopen]
  · simp [Verify, CreateVerifier, hdec, Decrypt, hwrong hne]

/-- C4: from the empty cache state, with the salt decoding and every prompt
returning a PIN, `GetOrPromptKeyPair` performs at most 3 PIN attempts; any
keypair it caches passed verification and is the one returned; if some
attempt's derived keypair verifies, a verified keypair is cached and
returned at that attempt; and if all 3 attempts fail verification it
returns the maximum-attempts error with the cache still empty. -/
theorem C4_retry_bounded (P : Prims) (pinSource : Nat → Except GoError (List Nat))
    (pins : Nat → List Nat) (saltB64 verifierB64 salt : List Nat)
    (hsalt : base64Decode saltB64 = .ok salt)
    (hpin : ∀ i, pinSource i = .ok (pins i)) :
    (GetOrPromptKeyPair P pinSource none saltB64 verifierB64).2.2 ≤ 3 ∧
    (∀ kp, (GetOrPromptKeyPair P pinSource none saltB64 verifierB64).2.1 = some kp →
      (GetOrPromptKeyPair P pinSource none saltB64 verifierB64).1 = .ok kp ∧
      Verify P kp verifierB64 = true) ∧
    ((∃ i, 1 ≤ i ∧ i ≤ 3 ∧ Verify P (deriveKP P (pins i) salt) verifierB64 = true) →
      ∃ i, 1 ≤ i ∧ i ≤ 3 ∧
        GetOrPromptKeyPair P pinSource none saltB64 verifierB64 =
          (.ok (deriveKP P (pins i) salt), some (deriveKP P (pins i) salt), i)) ∧
    ((∀ i, 1 ≤ i → i ≤ 3 → Verify P (deriveKP P (pins i) salt) verifierB64 = false) →
      GetOrPromptKeyPair P pinSource none saltB64 verifierB64 =
        (.error .maxAttemptsExceeded, none, 3)) := by
  have hR : GetOrPromptKeyPair P pinSource none saltB64 verifierB64 =
      promptLoop P pinSource salt verifierB64 3 0 := by
    have hm : GetOrPromptKeyPair P pinSource none saltB64 verifierB64 =
        (match base64Decode saltB64 with
         | .error _ => (.error .saltDecode, none, 0)
         | .ok s => promptLoop P pinSource s verifierB64 3 0) := rfl
    rw [hm, hsalt]
  have e3 : promptLoop P pinSource salt verifierB64 3 0 =
      (match pinSource 1 with
       | .error _ => (.error .pinPrompt, none, 1)
       | .ok pin =>
           match DeriveKeyPair P pin salt with
           | .error _ => (.error .derivingKeyPair, none, 1)
           | .ok kp =>
               if Verify P kp verifierB64 then (.ok kp, some kp, 1)
               else promptLoop P pinSource salt verifierB64 2 1) := rfl
  have e2 : promptLoop P pinSource salt verifierB64 2 1 =
      (match pinSource 2 with
       | .error _ => (.error .pinPrompt, none, 2)
       | .ok pin =>
           match DeriveKeyPair P pin salt with
           | .error _ => (.error .derivingKeyPair, none, 2)
           | .ok kp =>
               if Verify P kp verifierB64 then (.ok kp, some kp, 2)
               else promptLoop P pinSource salt verifierB64 1 2) := rfl
  have e1 : promptLoop P pinSource salt verifierB64 1 2 =
      (match pinSource 3 with
       | .error _ => (.error .pinPrompt, none, 3)
       | .ok pin =>
           match DeriveKeyPair P pin salt with
           | .error _ => (.error .derivingKeyPair, none, 3)
           | .ok kp =>
               if Verify P kp verifierB64 then (.ok kp, some kp, 3)
               else promptLoop P pinSource salt verifierB64 0 3) := rfl
  have e0 : promptLoop P pinSource salt verifierB64 0 3 =
      (.error .maxAttemptsExceeded, none, 3) := rfl
  simp only [hpin, deriveKeyPair_eq] at e3 e2 e1
  cases hv1 : Verify P (deriveKP P (pins 1) salt) verifierB64 with
  | true =>
      have hfin : GetOrPromptKeyPair P pinSource none saltB64 verifierB64 =
          (.ok (deriveKP P (pins 1) salt), some (deriveKP P (pins 1) salt), 1) := by
        rw [hR, e3, if_pos hv1]
      refine ⟨by rw [hfin]; exact (by norm_num), ?_, ?_, ?_⟩
      · intro kp hkp
        rw [hfin] at hkp
        simp only [Option.some.injEq] at hkp
        subst hkp
        exact ⟨by rw [hfin], hv1⟩
      · intro _
        exact ⟨1, le_refl 1, (by norm_num), hfin⟩
      · intro hall
        have := hall 1 (le_refl 1) (by norm_num)
        rw [hv1] at this
        exact absurd this (by simp)
  | false =>
      rw [if_neg (by simp [hv1])] at e3
      cases hv2 : Verify P (deriveKP P (pins 2) salt) verifierB64 with
      | true =>
          have hfin : GetOrPromptKeyPair P pinSource none saltB64 verifierB64 =
              (.ok (deriveKP P (pins 2) salt), some (deriveKP P (pins 2) salt), 2) := by
            rw [hR, e3, e2, if_pos hv2]
          refine ⟨by rw [hfin]; norm_num, ?_, ?_, ?_⟩
          · intro kp hkp
            rw [hfin] at hkp
            simp only [Option.some.injEq] at hkp
            subst hkp
            exact ⟨by rw [hfin], hv2⟩
          · intro _
            exact ⟨2, (by norm_num), by norm_num, hfin⟩
          · intro hall
            have := hall 2 (by norm_num) (by norm_num)
            rw [hv2] at this
            exact absurd this (by simp)
      | false =>
          rw [if_neg (by simp [hv2])] at e2
          cases hv3 : Verify P (deriveKP P (pins 3) salt) verifierB64 with
          | true =>
              have hfin : GetOrPromptKeyPair P pinSource none saltB64 verifierB64 =
                  (.ok (deriveKP P (pins 3) salt), some (deriveKP P (pins 3) salt), 3) := by
                rw [hR, e3, e2, e1, if_pos hv3]
              refine ⟨by rw [hfin], ?_, ?_, ?_⟩
              · intro kp hkp
                rw [hfin] at hkp
                simp only [Option.some.injEq] at hkp
                subst hkp
                exact ⟨by rw [hfin], hv3⟩
              · intro _
                exact ⟨3, (by norm_num), le_refl 3, hfin⟩
              · intro hall
                have := hall 3 (by norm_num) (le_refl 3)
                rw [hv3] at this
                exact absurd this (by simp)
          | false =>
              rw [if_neg (by simp [hv3])] at e1
              have hfin : GetOrPromptKeyPair P pinSource none saltB64 verifierB64 =
                  (.error .maxAttemptsExceeded, none, 3) := by
                rw [hR, e3, e2, e1, e0]
              refine ⟨by rw [hfin], ?_, ?_, ?_⟩
              · intro kp hkp
                rw [hfin] at hkp
                exact absurd hkp (by simp)
              · intro hex
                obtain ⟨i, h1, h3, hvi⟩ := hex
                have hi : i = 1 ∨ i = 2 ∨ i = 3 := by omega
                rcases hi with rfl | rfl | rfl
                · rw [hv1] at hvi
                  exact absurd hvi (by simp)
                · rw [hv2] at hvi
                  exact absurd hvi (by simp)
                · rw [hv3] at hvi
                  exact absurd hvi (by simp)
              · intro _
                exact hfin

/-! ## Witnesses: the claim theorems applied at concrete inputs -/

/-- C3 witness: the keypair invariant evaluated at the toy primitives with
empty PIN and salt. -/
theorem C3_keypair_invariant_witness :
    (deriveKP toyPrims [] []).publicKey =
      toyPrims.x25519Base (deriveKP toyPrims [] []).privateKey ∧
    IsClamped (deriveKP toyPrims [] []).privateKey :=
  C3_keypair_invariant toyPrims [] [] (deriveKP toyPrims [] [])
    (deriveKeyPair_eq toyPrims [] [])

/-- C4 witness: the retry-loop properties evaluated at the toy primitives
with an empty salt and verifier and a constant PIN source. -/
theorem C4_retry_bounded_witness :
    (GetOrPromptKeyPair toyPrims (fun _ => .ok (goStr "123456")) none [] []).2.2 ≤ 3 ∧
    (∀ kp, (GetOrPromptKeyPair toyPrims (fun _ => .ok (goStr "123456")) none [] []).2.1 =
        some kp →
      (GetOrPromptKeyPair toyPrims (fun _ => .ok (goStr "123456")) none [] []).1 = .ok kp ∧
      Verify toyPrims kp [] = true) ∧
    ((∃ i, 1 ≤ i ∧ i ≤ 3 ∧
        Verify toyPrims (deriveKP toyPrims (goStr "123456") []) [] = true) →
      ∃ i, 1 ≤ i ∧ i ≤ 3 ∧
        GetOrPromptKeyPair toyPrims (fun _ => .ok (goStr "123456")) none [] [] =
          (.ok (deriveKP toyPrims (goStr "123456") []),
           some (deriveKP toyPrims (goStr "123456") []), i)) ∧
    ((∀ i, 1 ≤ i → i ≤ 3 →
        Verify toyPrims (deriveKP toyPrims (goStr "123456") []) [] = false) →
      GetOrPromptKeyPair toyPrims (fun _ => .ok (goStr "123456")) none [] [] =
        (.error .maxAttemptsExceeded, none, 3)) :=
  C4_retry_bounded toyPrims (fun _ => .ok (goStr "123456")) (fun _ => goStr "123456")
    [] [] [] rfl (fun _ => rfl)

/-- C5 witness: a 47-byte ciphertext fails to decrypt under the toy
primitives, and every opening failure yields the decryption error. -/
theorem C5_decrypt_short_fails_witness :
    Decrypt toyPrims (List.replicate 47 0) toyKPA = .error .decryptionFailed ∧
    ∀ ct2, OpenAnonymous toyPrims ct2 toyKPA.publicKey toyKPA.privateKey = none →
      Decrypt toyPrims ct2 toyKPA = .error .decryptionFailed :=
  C5_decrypt_short_fails toyPrims (List.replicate 47 0) toyKPA (by decide)

/-- C7 witness: the verifier round-trip evaluated at the toy primitives and
two concrete keypairs with different private scalars. -/
theorem C7_verifier_roundtrip_witness :
    Verify toyPrims toyKPA (CreateVerifier toyPrims toyRand toyKPA) = true ∧
    Verify toyPrims toyKPB (CreateVerifier toyPrims toyRand toyKPA) = false :=
  C7_verifier_roundtrip toyPrims toyRand toyKPA toyKPB (by decide) (by decide)
    (by decide) (fun _ => by decide)

end Sunday
